import Mathlib

/-!
# Verification of the graph_mcp tool server

A shallow embedding of the FastMCP tool server in `src/app.py` (repository
`bcperry/graph_mcp`), together with theorems settling the specification
claims about it.

The five exposed tools (`get_user_info`, `greet_user`, `display_access_token`,
`list_email_messages`, `get_email_message`) are modelled as pure functions
from an explicit `World` (environment variables, the access token available
to the request, the filesystem contents, and the responses the external
Microsoft Graph SDK would give in this world) to a result dictionary, the
resulting world, and a trace of I/O effects.  Python `dict` values are
association lists preserving insertion order; parsed JSON values are the
inductive `Json`.
-/

namespace GraphMcp

/-- A parsed JSON value, the result of Python's `json.load`.  `null` also
stands for Python `None` (the value `dict.get` returns for a missing key).
Numbers are modelled as integers; no fixture field relevant to the claims
is fractional. -/
inductive Json where
  | null : Json
  | bool (b : Bool) : Json
  | num (n : Int) : Json
  | str (s : String) : Json
  | arr (items : List Json) : Json
  | obj (fields : List (String × Json)) : Json

/-- A Python dictionary with `Json` values, as an insertion-ordered
association list. -/
abbrev Dict := List (String × Json)

/-- First-occurrence lookup.  Python dicts produced by `json.load` or by
dict literals have distinct keys, so this is Python's `d[k]` / `k in d`. -/
def dictGet (d : Dict) (k : String) : Option Json :=
  match d with
  | [] => none
  | (k₀, v) :: rest => if k₀ = k then some v else dictGet rest k

/-- Python's `d.get(k, default)`. -/
def dictGetD (d : Dict) (k : String) (default : Json) : Json :=
  (dictGet d k).getD default

/-- Python's `d.get(k)` (default `None`). -/
def dictGetN (d : Dict) (k : String) : Json :=
  dictGetD d k Json.null

/-- Python dict update `d[k] = v` (also the semantics of the literal
`{**d, k: v}`): if `k` is present its value is replaced in place, keeping
insertion order; otherwise `(k, v)` is appended. -/
def dictSet : Dict → String → Json → Dict
  | [], k, v => [(k, v)]
  | (k₀, v₀) :: rest, k, v =>
    if k₀ = k then (k, v) :: rest
    else (k₀, v₀) :: dictSet rest k v

/-- The keys of a dictionary, in insertion order. -/
def dictKeys (d : Dict) : List String := d.map Prod.fst

/-! ## String and path helpers (Python `str.rstrip`, `os.path`) -/

/-- Python `s.rstrip("=")`: remove every trailing `=` character
(app.py line 315). -/
def pyRstripEq (s : String) : String :=
  String.mk ((s.toList.reverse.dropWhile (fun c => c = '=')).reverse)

/-- POSIX `os.path.dirname`: everything before the final slash, with
trailing slashes stripped unless the head is all slashes. -/
def pyDirname (p : String) : String :=
  let headRev := p.toList.reverse.dropWhile (fun c => c ≠ '/')
  if headRev.isEmpty then ""
  else if headRev.all (fun c => c = '/') then String.mk headRev.reverse
  else String.mk ((headRev.dropWhile (fun c => c = '/')).reverse)

/-- Whether a string begins with a slash. -/
def startsWithSlash (s : String) : Bool :=
  match s.toList with
  | [] => false
  | c :: _ => c = '/'

/-- Whether a string ends with a slash. -/
def endsWithSlash (s : String) : Bool :=
  match s.toList.reverse with
  | [] => false
  | c :: _ => c = '/'

/-- POSIX `os.path.join` on two components: an absolute second component
replaces the first; otherwise a single slash separates them. -/
def pathJoin (a b : String) : String :=
  if startsWithSlash b then b
  else if a = "" then b
  else if endsWithSlash a then a ++ b
  else a ++ "/" ++ b

/-- Split a character list at slashes. -/
def splitSlashAux : List Char → List Char → List String
  | [], acc => [String.mk acc.reverse]
  | c :: rest, acc =>
    if c = '/' then String.mk acc.reverse :: splitSlashAux rest []
    else splitSlashAux rest (c :: acc)

/-- The slash-separated components of a path. -/
def splitSlash (s : String) : List String :=
  splitSlashAux s.toList []

/-- One step of POSIX path resolution over components: empty and `.`
components are skipped and `..` pops the last resolved component. -/
def resolveStep (stack : List String) (c : String) : List String :=
  if c = "" ∨ c = "." then stack
  else if c = ".." then stack.dropLast
  else stack ++ [c]

/-- The resolved component list of a path: split on `/` and process `.`
and `..` segments. -/
def resolveComps (p : String) : List String :=
  (splitSlash p).foldl resolveStep []

/-- Whether the path `p` resolves to the directory `d` or below it. -/
def isUnderDir (d p : String) : Bool :=
  (resolveComps d).isPrefixOf (resolveComps p)

/-- Whether the character list contains the substring `../`. -/
def hasDotDotSlash : List Char → Bool
  | [] => false
  | '.' :: '.' :: '/' :: _ => true
  | _ :: rest => hasDotDotSlash rest

/-- Whether `s` contains the substring `../`. -/
def containsDotDotSlash (s : String) : Bool :=
  hasDotDotSlash s.toList

/-! ## The world a tool invocation runs in

All inputs a tool invocation in app.py observes: the directory of app.py
(`os.path.dirname(os.path.abspath(__file__))`), the module-level environment
variables, the access token fastmcp holds for the request, the filesystem,
and the responses the external Microsoft Graph SDK gives in this world. -/

/-- The outcome of opening a path in read mode and parsing it with
`json.load`. -/
inductive FileResult where
  | missing : FileResult
  | ioError (msg : String) : FileResult
  | parseError (msg : String) : FileResult
  | ok (j : Json) : FileResult

/-- The outcome of fastmcp's `get_access_token()` for the current request:
either an access token (raw string plus claims) or a raised exception with
message `msg`. -/
inductive TokenState where
  | avail (raw : String) (claims : Dict) : TokenState
  | raises (msg : String) : TokenState

/-- The user object `graph.get_user()` returns, restricted to the three
selected properties (graph.py lines 58-71).  Each is `Option String`
because Graph may omit a property (Python `None`). -/
structure UserObj where
  display_name : Option String
  mail : Option String
  user_principal_name : Option String

/-- The response of the external Graph service to `graph.get_user()` in this
world: a user (or `None`), a raised `ODataError` whose `.error` is `None` or
carries `(code, message)`, or another raised exception. -/
inductive UserFetch where
  | ok (u : Option UserObj) : UserFetch
  | odata (err : Option (String × String)) : UserFetch
  | exc (msg : String) : UserFetch

/-- The response of `credential.get_token` (via `graph.get_user_token()`)
in this world: a token string or a raised exception. -/
inductive TokenFetch where
  | ok (t : String) : TokenFetch
  | exc (msg : String) : TokenFetch

/-- The module-level environment variables read at app.py lines 14-16;
`none` when unset. -/
structure Env where
  azureClientId : Option String
  azureClientSecret : Option String
  azureTenantId : Option String

/-- The full state an invocation can observe. -/
structure World where
  appDir : String
  env : Env
  tokenSt : TokenState
  fs : String → FileResult
  sdkUser : UserFetch
  sdkToken : TokenFetch

/-- An externally visible I/O effect of an invocation. -/
inductive Effect where
  | fsRead (path : String) : Effect
  | fsWrite (path : String) : Effect
  | sdkCall (desc : String) : Effect

/-- The outcome of one tool invocation: the returned dictionary (or, as
`Except.error`, an exception that propagated out of the tool body), the
world afterwards, and the trace of I/O effects performed. -/
structure ToolOut where
  result : Except String Dict
  world : World
  effects : List Effect

/-! ## Python truthiness helpers -/

/-- Python truthiness of an optional string: `None` and `""` are falsy. -/
def pyTruthy : Option String → Bool
  | none => false
  | some s => s ≠ ""

/-- `user.display_name or "User"` (app.py line 128). -/
def displayNameOf (u : UserObj) : String :=
  if pyTruthy u.display_name then u.display_name.getD "" else "User"

/-- `user.mail or user.user_principal_name or "No email found"`
(app.py line 131). -/
def emailOf (u : UserObj) : String :=
  if pyTruthy u.mail then u.mail.getD ""
  else if pyTruthy u.user_principal_name then u.user_principal_name.getD ""
  else "No email found"

/-- `all([client_id, client_secret, tenant_id])` at app.py line 53. -/
def envAllSet (e : Env) : Bool :=
  pyTruthy e.azureClientId && pyTruthy e.azureClientSecret
    && pyTruthy e.azureTenantId

/-- The message of the `ValueError` raised by `_get_graph_client` when an
environment variable is missing (app.py lines 54-57). -/
def missingEnvMsg : String :=
  "Missing required environment variables for Microsoft Graph authentication. Required: MicrosoftAppId, MicrosoftAppPassword, MicrosoftAppTenantId"

/-- Stands for `str(e)` of the `TypeError` or `AttributeError` Python raises
when parsed JSON does not have the shape the code assumes (iterating a
non-iterable, calling `.get` on a non-dict element, or splatting a
non-mapping with `{**message}`).  The exact interpreter text is irrelevant
to every claim; only the fact that the generic `except Exception` handler
catches it matters. -/
def pyTypeErrMsg : String := "unsupported operand type"

/-! ## The five tool implementations (app.py lines 87-335) -/

/-- `get_user_info` (app.py lines 87-99).  No try/except: an exception from
`get_access_token()` propagates.  On success the returned dictionary maps
the five fixed keys to `token.claims.get(...)` (missing claims become
`None`). -/
def get_user_info (w : World) : ToolOut :=
  match w.tokenSt with
  | .raises e => ⟨.error e, w, []⟩
  | .avail _ claims =>
    ⟨.ok [("azure_id", dictGetN claims "sub"),
          ("email", dictGetN claims "email"),
          ("name", dictGetN claims "name"),
          ("job_title", dictGetN claims "job_title"),
          ("office_location", dictGetN claims "office_location")], w, []⟩

/-- The error dictionary the except branches of `greet_user` build
(app.py lines 142-155): greeting "Hello!", the error message, success
False. -/
def greetErr (e : String) : Dict :=
  [("greeting", .str "Hello!"), ("error", .str e), ("success", .bool false)]

/-- `greet_user` (app.py lines 102-155).  Everything, including
`get_access_token()` and `_get_graph_client`, runs inside try; `ODataError`
and `Exception` are both caught and reported with `success: False`. -/
def greet_user (w : World) : ToolOut :=
  match w.tokenSt with
  | .raises e => ⟨.ok (greetErr e), w, []⟩
  | .avail _ _ =>
    if envAllSet w.env then
      match w.sdkUser with
      | .ok (some u) =>
        ⟨.ok [("greeting", .str ("Hello, " ++ displayNameOf u ++ "!")),
              ("display_name", .str (displayNameOf u)),
              ("email", .str (emailOf u)),
              ("success", .bool true)], w, [.sdkCall "graph.get_user"]⟩
      | .ok none =>
        ⟨.ok (greetErr "Unable to retrieve user information"), w,
          [.sdkCall "graph.get_user"]⟩
      | .odata none =>
        ⟨.ok (greetErr "Unknown error"), w, [.sdkCall "graph.get_user"]⟩
      | .odata (some (c, m)) =>
        ⟨.ok (greetErr (c ++ ": " ++ m)), w, [.sdkCall "graph.get_user"]⟩
      | .exc e => ⟨.ok (greetErr e), w, [.sdkCall "graph.get_user"]⟩
    else
      ⟨.ok (greetErr missingEnvMsg), w, []⟩

/-- The error dictionary of `display_access_token` and of
`get_email_message` (app.py lines 185-188, 330-335). -/
def toolErr (e : String) : Dict :=
  [("error", .str e), ("success", .bool false)]

/-- `display_access_token` (app.py lines 158-188).  An empty token string is
falsy, taking the "Unable to retrieve access token" branch. -/
def display_access_token (w : World) : ToolOut :=
  match w.tokenSt with
  | .raises e => ⟨.ok (toolErr e), w, []⟩
  | .avail _ _ =>
    if envAllSet w.env then
      match w.sdkToken with
      | .ok t =>
        if t = "" then
          ⟨.ok (toolErr "Unable to retrieve access token"), w,
            [.sdkCall "credential.get_token"]⟩
        else
          ⟨.ok [("token", .str t), ("success", .bool true)], w,
            [.sdkCall "credential.get_token"]⟩
      | .exc e => ⟨.ok (toolErr e), w, [.sdkCall "credential.get_token"]⟩
    else
      ⟨.ok (toolErr missingEnvMsg), w, []⟩

/-- The data directory `os.path.join(os.path.dirname(current_dir), "data")`
(app.py lines 227-230 and 318-319), where `appDir` plays `current_dir`. -/
def dataDirOf (appDir : String) : String :=
  pathJoin (pyDirname appDir) "data"

/-- The fixture path of `list_email_messages` (app.py lines 228-230). -/
def sampleEmailsFile (appDir : String) : String :=
  pathJoin (dataDirOf appDir) "sample_emails.json"

/-- The reshape of one message dict in the loop of `list_email_messages`
(app.py lines 241-249): exactly the five listed keys, each via
`message.get(...)`. -/
def filterMessage (fields : Dict) : Json :=
  .obj [("id", dictGetN fields "id"),
        ("subject", dictGetN fields "subject"),
        ("from", dictGetN fields "from"),
        ("isRead", dictGetN fields "isRead"),
        ("bodyPreview", dictGetN fields "bodyPreview")]

/-- The body of the loop over the messages (app.py lines 240-249): each
element must be a dict (else `.get` raises into the generic handler); the
filtered dicts keep the original order. -/
def filterMessages : List Json → Option (List Json)
  | [] => some []
  | .obj fields :: rest =>
    (filterMessages rest).map (fun tail => filterMessage fields :: tail)
  | _ :: _ => none

/-- `for message in email_data.get("value", [])` (app.py line 240) on the
looked-up value: iterating a list filters its elements; iterating a string
yields characters and iterating a dict yields keys, neither of which has
`.get`, so those only succeed when empty; anything else is not iterable.
`none` means an exception reached the generic handler. -/
def iterFilter : Json → Option (List Json)
  | .arr msgs => filterMessages msgs
  | .str s => if s = "" then some [] else none
  | .obj fields => if fields.isEmpty then some [] else none
  | _ => none

/-- The error dictionary of `list_email_messages` (app.py lines 257-270):
always carries `value: []`. -/
def listErr (e : String) : Dict :=
  [("error", .str e), ("success", .bool false), ("value", .arr [])]

/-- `list_email_messages` (app.py lines 191-270). -/
def list_email_messages (w : World) : ToolOut :=
  let data_file := sampleEmailsFile w.appDir
  match w.fs data_file with
  | .missing =>
    ⟨.ok (listErr ("Sample email data file not found at " ++ data_file)), w,
      [.fsRead data_file]⟩
  | .ioError e =>
    ⟨.ok (listErr ("An error occurred: " ++ e)), w, [.fsRead data_file]⟩
  | .parseError e =>
    ⟨.ok (listErr ("Failed to parse email data: " ++ e)), w,
      [.fsRead data_file]⟩
  | .ok (.obj fields) =>
    match iterFilter (dictGetD fields "value" (.arr [])) with
    | some filtered =>
      ⟨.ok [("value", .arr filtered),
            ("message_count", .num filtered.length),
            ("success", .bool true)], w, [.fsRead data_file]⟩
    | none =>
      ⟨.ok (listErr ("An error occurred: " ++ pyTypeErrMsg)), w,
        [.fsRead data_file]⟩
  | .ok _ =>
    ⟨.ok (listErr ("An error occurred: " ++ pyTypeErrMsg)), w,
      [.fsRead data_file]⟩

/-- The file `get_email_message` opens for a given `message_id`
(app.py lines 313-320): trailing `=` stripped, `.json` appended, joined
onto the data directory. -/
def messageFile (appDir : String) (message_id : String) : String :=
  pathJoin (dataDirOf appDir) (pyRstripEq message_id ++ ".json")

/-- `get_email_message` (app.py lines 273-335).  On success the fixture
dict is returned with `success: True` merged in (`{**message,
"success": True}`). -/
def get_email_message (w : World) (message_id : String) : ToolOut :=
  let message_file := messageFile w.appDir message_id
  match w.fs message_file with
  | .missing =>
    ⟨.ok (toolErr ("Message with ID \x27" ++ message_id ++ "\x27 not found")),
      w, [.fsRead message_file]⟩
  | .ioError e =>
    ⟨.ok (toolErr ("An error occurred: " ++ e)), w, [.fsRead message_file]⟩
  | .parseError e =>
    ⟨.ok (toolErr ("Failed to parse message data: " ++ e)), w,
      [.fsRead message_file]⟩
  | .ok (.obj fields) =>
    ⟨.ok (dictSet fields "success" (.bool true)), w, [.fsRead message_file]⟩
  | .ok _ =>
    ⟨.ok (toolErr ("An error occurred: " ++ pyTypeErrMsg)), w,
      [.fsRead message_file]⟩

/-! ## The registered tool surface (the `@mcp.tool` decorators) -/

/-- A registered tool: argument (only `get_email_message` takes one) and
world to invocation outcome; `none` when the argument shape does not match
the tool signature. -/
def ToolHandler := Option String → World → Option ToolOut

/-- The tools registered on the FastMCP server, in source order: exactly
the five functions decorated with `@mcp.tool` in app.py. -/
def toolTable : List (String × ToolHandler) :=
  [("get_user_info",
     fun a w => match a with | none => some (get_user_info w) | some _ => none),
   ("greet_user",
     fun a w => match a with | none => some (greet_user w) | some _ => none),
   ("display_access_token",
     fun a w => match a with | none => some (display_access_token w) | some _ => none),
   ("list_email_messages",
     fun a w => match a with | none => some (list_email_messages w) | some _ => none),
   ("get_email_message",
     fun a w => match a with | some mid => some (get_email_message w mid) | none => none)]

/-- Dispatch of an incoming tool call by name: `none` when no such tool is
registered or the argument shape does not match. -/
def runTool (w : World) (name : String) (arg : Option String) : Option ToolOut :=
  match toolTable.lookup name with
  | some h => h arg w
  | none => none

/-! ## Concrete worlds used to instantiate the theorems -/

/-- A fully configured environment. -/
def env0 : Env :=
  ⟨some "client-id-0", some "client-secret-0", some "tenant-id-0"⟩

/-- Concrete token claims. -/
def claims0 : Dict :=
  [("sub", .str "user-123"), ("email", .str "u@example.com"),
   ("name", .str "U Ser")]

/-- A concrete inbox fixture with two messages, carrying fields beyond the
five that `list_email_messages` keeps. -/
def sampleFixture : Json :=
  .obj [("@odata.context", .str "ctx"),
        ("value", .arr
          [.obj [("id", .str "m1"), ("subject", .str "Hi"),
                 ("from", .obj [("emailAddress", .obj [("name", .str "A")])]),
                 ("isRead", .bool true), ("bodyPreview", .str "preview-1"),
                 ("body", .str "full body 1")],
           .obj [("id", .str "m2"), ("subject", .str "Re: Hi"),
                 ("isRead", .bool false), ("bodyPreview", .str "preview-2")]])]

/-- A concrete single-message fixture that already carries a `success`
field, which `get_email_message` overwrites. -/
def messageFixture : Json :=
  .obj [("success", .bool false), ("subject", .str "hi"),
        ("id", .str "m1")]

/-- A concrete world: fixtures present, token available, SDK responding. -/
def w0 : World where
  appDir := "/app/src"
  env := env0
  tokenSt := .avail "raw-token-0" claims0
  fs := fun p =>
    if p = "/app/data/sample_emails.json" then .ok sampleFixture
    else if p = "/app/data/m1.json" then .ok messageFixture
    else .missing
  sdkUser := .ok (some ⟨some "Alice", some "alice@example.com", none⟩)
  sdkToken := .ok "graph-token-0"

/-- The world `w0` with the access token retrieval raising. -/
def w0raises : World :=
  { w0 with tokenSt := .raises "no access token available" }

/-- The relation between a fixture message dict and its filtered form in
the `value` list of a `list_email_messages` result. -/
def FilteredOf (m fm : Json) : Prop :=
  ∃ fields, m = Json.obj fields ∧ fm = filterMessage fields

/-- The invocation outcome `o` reports a caught exception whose message is
`msg`: the tool returned (did not propagate) a dictionary carrying
`success: False` and the error message. -/
def ReportsError (o : ToolOut) (msg : String) : Prop :=
  ∃ d, o.result = Except.ok d
    ∧ dictGet d "success" = some (Json.bool false)
    ∧ dictGet d "error" = some (Json.str msg)

/-- The dictionary `list_email_messages` returns in the world `w0`. -/
def listResult0 : Dict :=
  [("value", .arr
     [.obj [("id", .str "m1"), ("subject", .str "Hi"),
            ("from", .obj [("emailAddress", .obj [("name", .str "A")])]),
            ("isRead", .bool true), ("bodyPreview", .str "preview-1")],
      .obj [("id", .str "m2"), ("subject", .str "Re: Hi"), ("from", .null),
            ("isRead", .bool false), ("bodyPreview", .str "preview-2")]]),
   ("message_count", .num 2), ("success", .bool true)]

/-- The fields of `messageFixture`. -/
def messageFields0 : Dict :=
  [("success", .bool false), ("subject", .str "hi"), ("id", .str "m1")]

/-- The dictionary `get_email_message` returns for `"m1"` in the world
`w0`. -/
def messageResult0 : Dict :=
  [("success", .bool true), ("subject", .str "hi"), ("id", .str "m1")]

/-- The fields of `sampleFixture`. -/
def sampleFields0 : Dict :=
  [("@odata.context", .str "ctx"),
   ("value", .arr
     [.obj [("id", .str "m1"), ("subject", .str "Hi"),
            ("from", .obj [("emailAddress", .obj [("name", .str "A")])]),
            ("isRead", .bool true), ("bodyPreview", .str "preview-1"),
            ("body", .str "full body 1")],
      .obj [("id", .str "m2"), ("subject", .str "Re: Hi"),
            ("isRead", .bool false), ("bodyPreview", .str "preview-2")]])]

/-- The `value` array of `sampleFixture`. -/
def sampleMsgs0 : List Json :=
  [.obj [("id", .str "m1"), ("subject", .str "Hi"),
         ("from", .obj [("emailAddress", .obj [("name", .str "A")])]),
         ("isRead", .bool true), ("bodyPreview", .str "preview-1"),
         ("body", .str "full body 1")],
   .obj [("id", .str "m2"), ("subject", .str "Re: Hi"),
         ("isRead", .bool false), ("bodyPreview", .str "preview-2")]]

/-- The filtered form of the two messages of `sampleFixture`, as they
appear in the `value` list of a successful `list_email_messages` result. -/
def filteredMsgs0 : List Json :=
  [.obj [("id", .str "m1"), ("subject", .str "Hi"),
         ("from", .obj [("emailAddress", .obj [("name", .str "A")])]),
         ("isRead", .bool true), ("bodyPreview", .str "preview-1")],
   .obj [("id", .str "m2"), ("subject", .str "Re: Hi"), ("from", .null),
         ("isRead", .bool false), ("bodyPreview", .str "preview-2")]]

/-! ## Helper lemmas -/

theorem dropWhile_replicate_append (n : Nat) (l : List Char) :
    List.dropWhile (fun c => c = '=') (List.replicate n '=' ++ l)
      = List.dropWhile (fun c => c = '=') l := by
  induction n with
  | zero => simp
  | succ n ih => simp [List.replicate_succ, List.dropWhile_cons, ih]

theorem pyRstripEq_append_eqs (s : String) (n : Nat) :
    pyRstripEq (s ++ String.mk (List.replicate n '=')) = pyRstripEq s := by
  cases s with
  | mk data =>
    show pyRstripEq (String.mk (data ++ List.replicate n '='))
        = pyRstripEq (String.mk data)
    simp [pyRstripEq, dropWhile_replicate_append]

theorem messageFile_append_eqs (appDir mid : String) (n : Nat) :
    messageFile appDir (mid ++ String.mk (List.replicate n '='))
      = messageFile appDir mid := by
  simp [messageFile, pyRstripEq_append_eqs]

theorem dictGet_dictSet_self (d : Dict) (k : String) (v : Json) :
    dictGet (dictSet d k v) k = some v := by
  induction d with
  | nil => simp [dictSet, dictGet]
  | cons p rest ih =>
    obtain ⟨k₀, v₀⟩ := p
    by_cases hk : k₀ = k
    · simp [dictSet, hk, dictGet]
    · simp [dictSet, hk, dictGet, ih]

theorem dictGet_dictSet_ne (d : Dict) (k k₂ : String) (v : Json)
    (h : k₂ ≠ k) :
    dictGet (dictSet d k v) k₂ = dictGet d k₂ := by
  induction d with
  | nil => simp [dictSet, dictGet, Ne.symm h]
  | cons p rest ih =>
    obtain ⟨k₀, v₀⟩ := p
    by_cases hk : k₀ = k
    · subst hk
      simp [dictSet, dictGet, if_neg (Ne.symm h)]
    · simp [dictSet, hk, dictGet, ih]

theorem dictGet_of_mem_nodup (d : Dict) (k : String) (v : Json)
    (hnd : (dictKeys d).Nodup) (hmem : (k, v) ∈ d) :
    dictGet d k = some v := by
  induction d with
  | nil => simp at hmem
  | cons p rest ih =>
    obtain ⟨k₀, v₀⟩ := p
    rw [dictKeys, List.map_cons, List.nodup_cons] at hnd
    rcases List.mem_cons.mp hmem with h | h
    · simp only [Prod.mk.injEq] at h
      obtain ⟨rfl, rfl⟩ := h
      simp [dictGet]
    · by_cases hk : k₀ = k
      · subst hk
        exact absurd (List.mem_map_of_mem Prod.fst h) hnd.1
      · simp only [dictGet, if_neg hk]
        exact ih hnd.2 h

theorem filterMessages_forall2 (msgs vs : List Json)
    (h : filterMessages msgs = some vs) :
    List.Forall₂ FilteredOf msgs vs := by
  induction msgs generalizing vs with
  | nil => simp [filterMessages] at h; simp [h]
  | cons m rest ih =>
    cases m with
    | obj fields =>
      simp [filterMessages] at h
      obtain ⟨tail, htail, hv⟩ := h
      subst hv
      exact List.Forall₂.cons ⟨fields, rfl, rfl⟩ (ih tail htail)
    | null => simp [filterMessages] at h
    | bool b => simp [filterMessages] at h
    | num n => simp [filterMessages] at h
    | str s => simp [filterMessages] at h
    | arr xs => simp [filterMessages] at h

/-- Every entry of a successful filter pass is an object with exactly the
five selected keys. -/
theorem filterMessages_keys (msgs vs : List Json)
    (h : filterMessages msgs = some vs) :
    ∀ fm ∈ vs, ∃ ffs, fm = Json.obj ffs
      ∧ dictKeys ffs = ["id", "subject", "from", "isRead", "bodyPreview"] := by
  induction msgs generalizing vs with
  | nil =>
    simp [filterMessages] at h
    subst h
    intro fm hfm
    cases hfm
  | cons m rest ih =>
    cases m with
    | obj fields =>
      simp [filterMessages] at h
      obtain ⟨tail, htail, hv⟩ := h
      subst hv
      intro fm hfm
      rcases List.mem_cons.mp hfm with rfl | hmem
      · exact ⟨_, rfl, rfl⟩
      · exact ih tail htail fm hmem
    | null => simp [filterMessages] at h
    | bool b => simp [filterMessages] at h
    | num n => simp [filterMessages] at h
    | str s => simp [filterMessages] at h
    | arr xs => simp [filterMessages] at h

theorem runTool_cases (w : World) (name : String) (a : Option String)
    (o : ToolOut) (h : runTool w name a = some o) :
    (name = "get_user_info" ∧ a = none ∧ o = get_user_info w)
    ∨ (name = "greet_user" ∧ a = none ∧ o = greet_user w)
    ∨ (name = "display_access_token" ∧ a = none ∧ o = display_access_token w)
    ∨ (name = "list_email_messages" ∧ a = none ∧ o = list_email_messages w)
    ∨ (∃ mid, name = "get_email_message" ∧ a = some mid
         ∧ o = get_email_message w mid) := by
  unfold runTool toolTable at h
  simp only [List.lookup] at h
  cases hb1 : name == "get_user_info" with
  | true =>
    rw [hb1] at h
    cases a with
    | none => exact Or.inl ⟨by simpa using hb1, rfl, by simpa using h.symm⟩
    | some s => simp at h
  | false =>
    rw [hb1] at h
    cases hb2 : name == "greet_user" with
    | true =>
      rw [hb2] at h
      cases a with
      | none =>
        exact Or.inr (Or.inl ⟨by simpa using hb2, rfl, by simpa using h.symm⟩)
      | some s => simp at h
    | false =>
      rw [hb2] at h
      cases hb3 : name == "display_access_token" with
      | true =>
        rw [hb3] at h
        cases a with
        | none =>
          exact Or.inr (Or.inr (Or.inl
            ⟨by simpa using hb3, rfl, by simpa using h.symm⟩))
        | some s => simp at h
      | false =>
        rw [hb3] at h
        cases hb4 : name == "list_email_messages" with
        | true =>
          rw [hb4] at h
          cases a with
          | none =>
            exact Or.inr (Or.inr (Or.inr (Or.inl
              ⟨by simpa using hb4, rfl, by simpa using h.symm⟩)))
          | some s => simp at h
        | false =>
          rw [hb4] at h
          cases hb5 : name == "get_email_message" with
          | true =>
            rw [hb5] at h
            cases a with
            | none => simp at h
            | some mid =>
              exact Or.inr (Or.inr (Or.inr (Or.inr
                ⟨mid, by simpa using hb5, rfl, by simpa using h.symm⟩)))
          | false =>
            rw [hb5] at h
            simp at h

theorem get_user_info_world_eq (w : World) : (get_user_info w).world = w := by
  unfold get_user_info
  repeat' split
  all_goals rfl

theorem greet_user_world_eq (w : World) : (greet_user w).world = w := by
  unfold greet_user
  repeat' split
  all_goals rfl

theorem display_access_token_world_eq (w : World) :
    (display_access_token w).world = w := by
  unfold display_access_token
  repeat' split
  all_goals rfl

theorem list_email_messages_world_eq (w : World) :
    (list_email_messages w).world = w := by
  unfold list_email_messages
  dsimp only []
  repeat' split
  all_goals rfl

theorem get_email_message_world_eq (w : World) (mid : String) :
    (get_email_message w mid).world = w := by
  unfold get_email_message
  dsimp only []
  repeat' split
  all_goals rfl

theorem get_user_info_effects (w : World) : (get_user_info w).effects = [] := by
  unfold get_user_info
  repeat' split
  all_goals rfl

theorem greet_user_effects (w : World) :
    (greet_user w).effects = []
      ∨ (greet_user w).effects = [.sdkCall "graph.get_user"] := by
  unfold greet_user
  repeat' split
  all_goals simp

theorem display_access_token_effects (w : World) :
    (display_access_token w).effects = []
      ∨ (display_access_token w).effects = [.sdkCall "credential.get_token"] := by
  unfold display_access_token
  repeat' split
  all_goals simp

theorem list_email_messages_effects (w : World) :
    (list_email_messages w).effects = [.fsRead (sampleEmailsFile w.appDir)] := by
  unfold list_email_messages
  dsimp only []
  repeat' split
  all_goals rfl

theorem get_email_message_effects (w : World) (mid : String) :
    (get_email_message w mid).effects = [.fsRead (messageFile w.appDir mid)] := by
  unfold get_email_message
  dsimp only []
  repeat' split
  all_goals rfl

theorem greet_user_report (w : World) :
    ∃ d b, (greet_user w).result = Except.ok d
      ∧ dictGet d "success" = some (Json.bool b)
      ∧ (b = false → ∃ m, dictGet d "error" = some (Json.str m)) := by
  unfold greet_user
  repeat' split
  all_goals first
    | exact ⟨_, true, rfl, rfl, by simp⟩
    | exact ⟨_, false, rfl, rfl, fun _ => ⟨_, rfl⟩⟩

theorem display_access_token_report (w : World) :
    ∃ d b, (display_access_token w).result = Except.ok d
      ∧ dictGet d "success" = some (Json.bool b)
      ∧ (b = false → ∃ m, dictGet d "error" = some (Json.str m)) := by
  unfold display_access_token
  repeat' split
  all_goals first
    | exact ⟨_, true, rfl, rfl, by simp⟩
    | exact ⟨_, false, rfl, rfl, fun _ => ⟨_, rfl⟩⟩

theorem list_email_messages_report (w : World) :
    ∃ d b, (list_email_messages w).result = Except.ok d
      ∧ dictGet d "success" = some (Json.bool b)
      ∧ (b = false → ∃ m, dictGet d "error" = some (Json.str m)) := by
  unfold list_email_messages
  dsimp only []
  repeat' split
  all_goals first
    | exact ⟨_, true, rfl, rfl, by simp⟩
    | exact ⟨_, false, rfl, rfl, fun _ => ⟨_, rfl⟩⟩

theorem get_email_message_report (w : World) (mid : String) :
    ∃ d b, (get_email_message w mid).result = Except.ok d
      ∧ dictGet d "success" = some (Json.bool b)
      ∧ (b = false → ∃ m, dictGet d "error" = some (Json.str m)) := by
  unfold get_email_message
  dsimp only []
  repeat' split
  all_goals first
    | exact ⟨_, true, rfl, dictGet_dictSet_self .., by simp⟩
    | exact ⟨_, false, rfl, rfl, fun _ => ⟨_, rfl⟩⟩

theorem toList_append (a b : String) : (a ++ b).toList = a.toList ++ b.toList := by
  cases a
  cases b
  rfl

theorem splitSlashAux_append (xs ys : List Char) (acc : List Char) :
    splitSlashAux (xs ++ '/' :: ys) acc
      = splitSlashAux xs acc ++ splitSlashAux ys [] := by
  induction xs generalizing acc with
  | nil => simp [splitSlashAux]
  | cons c rest ih =>
    by_cases hc : c = '/'
    · subst hc
      simp [splitSlashAux, ih]
    · simp [splitSlashAux, hc, ih]

theorem resolveComps_slash_append (a b : String) :
    resolveComps (a ++ "/" ++ b)
      = (splitSlash b).foldl resolveStep (resolveComps a) := by
  unfold resolveComps splitSlash
  rw [toList_append, toList_append]
  have h : a.toList ++ "/".toList ++ b.toList = a.toList ++ '/' :: b.toList := by
    simp [String.toList]
  rw [h, splitSlashAux_append, List.foldl_append]

theorem endsWithSlash_append_data (x : String) :
    endsWithSlash (x ++ "data") = false := by
  cases x with
  | mk l =>
    show endsWithSlash (String.mk (l ++ "data".toList)) = false
    simp [endsWithSlash, String.toList, List.reverse_append]

theorem endsWithSlash_append_slashdata (x : String) :
    endsWithSlash (x ++ "/data") = false := by
  cases x with
  | mk l =>
    show endsWithSlash (String.mk (l ++ "/data".toList)) = false
    simp [endsWithSlash, String.toList, List.reverse_append]

theorem append_data_ne_empty (x : String) : x ++ "data" ≠ "" := by
  cases x with
  | mk l =>
    intro h
    have h2 : l ++ "data".toList = [] := congrArg String.toList h
    simp at h2

theorem append_slashdata_ne_empty (x : String) : x ++ "/data" ≠ "" := by
  cases x with
  | mk l =>
    intro h
    have h2 : l ++ "/data".toList = [] := congrArg String.toList h
    simp at h2

theorem dataDirOf_shape (appDir : String) :
    ∃ R, resolveComps (dataDirOf appDir) = R ++ ["data"]
      ∧ dataDirOf appDir ≠ ""
      ∧ endsWithSlash (dataDirOf appDir) = false := by
  unfold dataDirOf pathJoin
  have hsw : startsWithSlash "data" = false := rfl
  rw [hsw]
  simp only [Bool.false_eq_true, if_false]
  by_cases hP : pyDirname appDir = ""
  · rw [if_pos hP]
    exact ⟨[], rfl, by decide, rfl⟩
  · rw [if_neg hP]
    by_cases hend : endsWithSlash (pyDirname appDir) = true
    · rw [if_pos hend]
      cases hrev : (pyDirname appDir).toList.reverse with
      | nil =>
        exfalso
        unfold endsWithSlash at hend
        rw [hrev] at hend
        simp at hend
      | cons c t =>
        have hc : c = '/' := by
          unfold endsWithSlash at hend
          rw [hrev] at hend
          simpa using hend
        subst hc
        have hPlist : (pyDirname appDir).toList = t.reverse ++ ['/'] := by
          rw [← List.reverse_reverse (pyDirname appDir).toList, hrev]
          simp
        have hPmk : pyDirname appDir = String.mk (t.reverse ++ ['/']) := by
          rw [← hPlist]
          rfl
        have key : pyDirname appDir ++ "data"
            = String.mk t.reverse ++ "/" ++ "data" := by
          rw [hPmk]
          rfl
        refine ⟨resolveComps (String.mk t.reverse), ?_,
          append_data_ne_empty _, endsWithSlash_append_data _⟩
        rw [key, resolveComps_slash_append]
        rfl
    · rw [if_neg hend]
      refine ⟨resolveComps (pyDirname appDir), ?_,
        append_data_ne_empty (pyDirname appDir ++ "/"),
        endsWithSlash_append_data (pyDirname appDir ++ "/")⟩
      rw [resolveComps_slash_append]
      rfl


theorem pathJoin_of_facts (a b : String) (hb : startsWithSlash b = false)
    (ha : a ≠ "") (hs : endsWithSlash a = false) :
    pathJoin a b = a ++ "/" ++ b := by
  unfold pathJoin
  rw [hb, hs]
  simp only [Bool.false_eq_true, if_false, if_neg ha]

theorem isPrefixOf_append_data_escape (R : List String) :
    (R ++ ["data"]).isPrefixOf (R ++ ["escape.json"]) = false := by
  induction R with
  | nil => rfl
  | cons r rest ih => simp [List.isPrefixOf, ih]

theorem messageFile_escape_outside (appDir : String) :
    isUnderDir (dataDirOf appDir) (messageFile appDir "../escape") = false := by
  obtain ⟨R, hR, hne, hslash⟩ := dataDirOf_shape appDir
  have hmf : messageFile appDir "../escape"
      = dataDirOf appDir ++ "/" ++ "../escape.json" := by
    unfold messageFile
    have h1 : pyRstripEq "../escape" ++ ".json" = "../escape.json" := rfl
    rw [h1]
    exact pathJoin_of_facts _ _ rfl hne hslash
  unfold isUnderDir
  rw [hmf, resolveComps_slash_append]
  have hsplit : splitSlash "../escape.json" = ["..", "escape.json"] := rfl
  rw [hsplit, hR]
  have hfold : (["..", "escape.json"] : List String).foldl resolveStep (R ++ ["data"])
      = R ++ ["escape.json"] := by
    show resolveStep (resolveStep (R ++ ["data"]) "..") "escape.json" = R ++ ["escape.json"]
    have h2 : resolveStep (R ++ ["data"]) ".." = R := by
      show (R ++ ["data"]).dropLast = R
      simp
    rw [h2]
    rfl
  rw [hfold]
  exact isPrefixOf_append_data_escape R

/-! ## The claims -/

/-- C1: the mail-listing and mail-read tools (`list_email_messages` and
`get_email_message`) never call the external mail service or the Graph SDK:
every effect they perform is a filesystem read of the fixture file, and
their result and effect trace depend only on the filesystem and the static
application directory — not on the access token, the environment variables,
or the Graph SDK responses. -/
theorem c1_mail_tools_fixture_only (name : String)
    (hname : name = "list_email_messages" ∨ name = "get_email_message")
    (a : Option String) (w w₂ : World)
    (hfs : w.fs = w₂.fs) (hdir : w.appDir = w₂.appDir) :
    (runTool w name a).map (fun o => (o.result, o.effects))
      = (runTool w₂ name a).map (fun o => (o.result, o.effects))
    ∧ (∀ o, runTool w name a = some o →
        ∀ e ∈ o.effects, ∃ p, e = Effect.fsRead p) := by
  rcases hname with rfl | rfl
  · cases a with
    | some s =>
      refine ⟨rfl, ?_⟩
      intro o h
      rw [show runTool w "list_email_messages" (some s) = none from rfl] at h
      cases h
    | none =>
      rw [show runTool w "list_email_messages" none
            = some (list_email_messages w) from rfl,
          show runTool w₂ "list_email_messages" none
            = some (list_email_messages w₂) from rfl]
      constructor
      · have hr : (list_email_messages w).result = (list_email_messages w₂).result := by
          unfold list_email_messages
          dsimp only []
          rw [hdir, hfs]
          repeat' split
          all_goals rfl
        have he : (list_email_messages w).effects = (list_email_messages w₂).effects := by
          rw [list_email_messages_effects, list_email_messages_effects, hdir]
        simp [hr, he]
      · intro o h e he
        rw [Option.some.injEq] at h
        rw [← h, list_email_messages_effects] at he
        simp at he
        exact ⟨_, he⟩
  · cases a with
    | none =>
      refine ⟨rfl, ?_⟩
      intro o h
      rw [show runTool w "get_email_message" none = none from rfl] at h
      cases h
    | some mid =>
      rw [show runTool w "get_email_message" (some mid)
            = some (get_email_message w mid) from rfl,
          show runTool w₂ "get_email_message" (some mid)
            = some (get_email_message w₂ mid) from rfl]
      constructor
      · have hr : (get_email_message w mid).result = (get_email_message w₂ mid).result := by
          unfold get_email_message
          dsimp only []
          rw [hdir, hfs]
          repeat' split
          all_goals rfl
        have he : (get_email_message w mid).effects = (get_email_message w₂ mid).effects := by
          rw [get_email_message_effects, get_email_message_effects, hdir]
        simp [hr, he]
      · intro o h e he
        rw [Option.some.injEq] at h
        rw [← h, get_email_message_effects] at he
        simp at he
        exact ⟨_, he⟩

/-- Witness for C1: in the concrete worlds `w0` and `w0raises` (which differ
in the access-token state but share the filesystem), `list_email_messages`
returns the same result with only read effects. -/
theorem c1_witness :
    (runTool w0 "list_email_messages" none).map (fun o => (o.result, o.effects))
      = (runTool w0raises "list_email_messages" none).map (fun o => (o.result, o.effects))
    ∧ (∀ o, runTool w0 "list_email_messages" none = some o →
        ∀ e ∈ o.effects, ∃ p, e = Effect.fsRead p) :=
  c1_mail_tools_fixture_only "list_email_messages" (Or.inl rfl) none w0 w0raises rfl rfl

/-- Counterexample to C2: `get_user_info` succeeds in the world `w0` yet its
returned dictionary has no `success` key at all, so not every tool returns a
dictionary with a boolean `success` key on every path. -/
theorem c2_counterexample :
    ∃ d, (get_user_info w0).result = Except.ok d
      ∧ dictGet d "success" = none :=
  ⟨_, rfl, rfl⟩

/-- C2 as amended: four of the five tools — all but `get_user_info` — return
on every execution path a dictionary containing a boolean `success` key. -/
theorem c2_amended (name : String)
    (hname : name = "greet_user" ∨ name = "display_access_token"
      ∨ name = "list_email_messages" ∨ name = "get_email_message")
    (w : World) (a : Option String) (o : ToolOut)
    (h : runTool w name a = some o) :
    ∃ d b, o.result = Except.ok d
      ∧ dictGet d "success" = some (Json.bool b) := by
  rcases runTool_cases w name a o h with
    ⟨hn, _, _⟩ | ⟨_, _, rfl⟩ | ⟨_, _, rfl⟩ | ⟨_, _, rfl⟩ | ⟨mid, _, _, rfl⟩
  · subst hn
    rcases hname with h1 | h1 | h1 | h1 <;> exact absurd h1 (by decide)
  · obtain ⟨d, b, hr, hs, _⟩ := greet_user_report w
    exact ⟨d, b, hr, hs⟩
  · obtain ⟨d, b, hr, hs, _⟩ := display_access_token_report w
    exact ⟨d, b, hr, hs⟩
  · obtain ⟨d, b, hr, hs, _⟩ := list_email_messages_report w
    exact ⟨d, b, hr, hs⟩
  · obtain ⟨d, b, hr, hs, _⟩ := get_email_message_report w mid
    exact ⟨d, b, hr, hs⟩

/-- Witness for C2: `greet_user` in the world `w0`. -/
theorem c2_witness :
    ∃ d b, (greet_user w0).result = Except.ok d
      ∧ dictGet d "success" = some (Json.bool b) :=
  c2_amended "greet_user" (Or.inl rfl) w0 none (greet_user w0) rfl

/-- Counterexample to C3: when `get_access_token()` raises, `get_user_info`
(which has no try/except) propagates the exception instead of catching it
and reporting an error dictionary. -/
theorem c3_counterexample :
    (get_user_info w0raises).result = Except.error "no access token available"
    ∧ ∀ d, (get_user_info w0raises).result ≠ Except.ok d := by
  refine ⟨rfl, ?_⟩
  intro d h
  rw [show (get_user_info w0raises).result
      = Except.error "no access token available" from rfl] at h
  exact Except.noConfusion h

/-- C3 as amended: every tool except `get_user_info` catches every exception
raised during its execution and reports it as a dictionary with an `error`
message and `success: False`, never propagating the exception, and no tool
retries (each invocation performs at most one external operation).
Conjunct 1 gives the generic guarantee for every execution of the four
tools; the remaining conjuncts tie each exception-raising configuration —
a raising `get_access_token()`, the missing-environment `ValueError` of
`_get_graph_client`, an `ODataError` or other exception from the Graph SDK,
a missing, unreadable or unparsable fixture file, and non-dict JSON hitting
the reshape — to the exact error dictionary reported. -/
theorem c3_amended :
    (∀ name, (name = "greet_user" ∨ name = "display_access_token"
        ∨ name = "list_email_messages" ∨ name = "get_email_message") →
      ∀ w a o, runTool w name a = some o →
      ∃ d, o.result = Except.ok d
        ∧ (∃ b, dictGet d "success" = some (Json.bool b))
        ∧ (dictGet d "success" = some (Json.bool false) →
            ∃ m, dictGet d "error" = some (Json.str m))
        ∧ o.effects.length ≤ 1)
    ∧ (∀ w e, w.tokenSt = TokenState.raises e →
        ReportsError (greet_user w) e
          ∧ ReportsError (display_access_token w) e)
    ∧ (∀ w r c, w.tokenSt = TokenState.avail r c →
        envAllSet w.env = false →
        ReportsError (greet_user w) missingEnvMsg
          ∧ ReportsError (display_access_token w) missingEnvMsg)
    ∧ (∀ w r c, w.tokenSt = TokenState.avail r c →
        envAllSet w.env = true →
        (∀ e, w.sdkUser = UserFetch.exc e → ReportsError (greet_user w) e)
        ∧ (w.sdkUser = UserFetch.odata none →
            ReportsError (greet_user w) "Unknown error")
        ∧ (∀ cd m, w.sdkUser = UserFetch.odata (some (cd, m)) →
            ReportsError (greet_user w) (cd ++ ": " ++ m))
        ∧ (∀ e, w.sdkToken = TokenFetch.exc e →
            ReportsError (display_access_token w) e))
    ∧ (∀ w,
        (w.fs (sampleEmailsFile w.appDir) = FileResult.missing →
          ReportsError (list_email_messages w)
            ("Sample email data file not found at " ++ sampleEmailsFile w.appDir))
        ∧ (∀ e, w.fs (sampleEmailsFile w.appDir) = FileResult.ioError e →
            ReportsError (list_email_messages w) ("An error occurred: " ++ e))
        ∧ (∀ e, w.fs (sampleEmailsFile w.appDir) = FileResult.parseError e →
            ReportsError (list_email_messages w)
              ("Failed to parse email data: " ++ e))
        ∧ (∀ fields,
            w.fs (sampleEmailsFile w.appDir) = FileResult.ok (Json.obj fields) →
            iterFilter (dictGetD fields "value" (Json.arr [])) = none →
            ReportsError (list_email_messages w)
              ("An error occurred: " ++ pyTypeErrMsg))
        ∧ (∀ j, w.fs (sampleEmailsFile w.appDir) = FileResult.ok j →
            (∀ fields, j ≠ Json.obj fields) →
            ReportsError (list_email_messages w)
              ("An error occurred: " ++ pyTypeErrMsg)))
    ∧ (∀ w mid,
        (w.fs (messageFile w.appDir mid) = FileResult.missing →
          ReportsError (get_email_message w mid)
            ("Message with ID \x27" ++ mid ++ "\x27 not found"))
        ∧ (∀ e, w.fs (messageFile w.appDir mid) = FileResult.ioError e →
            ReportsError (get_email_message w mid) ("An error occurred: " ++ e))
        ∧ (∀ e, w.fs (messageFile w.appDir mid) = FileResult.parseError e →
            ReportsError (get_email_message w mid)
              ("Failed to parse message data: " ++ e))
        ∧ (∀ j, w.fs (messageFile w.appDir mid) = FileResult.ok j →
            (∀ fields, j ≠ Json.obj fields) →
            ReportsError (get_email_message w mid)
              ("An error occurred: " ++ pyTypeErrMsg))) := by
  refine ⟨?_, ?_, ?_, ?_, ?_, ?_⟩
  · intro name hname w a o h
    rcases runTool_cases w name a o h with
      ⟨hn, _, _⟩ | ⟨_, _, rfl⟩ | ⟨_, _, rfl⟩ | ⟨_, _, rfl⟩ | ⟨mid, _, _, rfl⟩
    · subst hn
      rcases hname with h1 | h1 | h1 | h1 <;> exact absurd h1 (by decide)
    · obtain ⟨d, b, hr, hs, himp⟩ := greet_user_report w
      refine ⟨d, hr, ⟨b, hs⟩, ?_, ?_⟩
      · intro hf
        rw [hs] at hf
        exact himp (Json.bool.inj (Option.some.inj hf))
      · rcases greet_user_effects w with he | he <;> simp [he]
    · obtain ⟨d, b, hr, hs, himp⟩ := display_access_token_report w
      refine ⟨d, hr, ⟨b, hs⟩, ?_, ?_⟩
      · intro hf
        rw [hs] at hf
        exact himp (Json.bool.inj (Option.some.inj hf))
      · rcases display_access_token_effects w with he | he <;> simp [he]
    · obtain ⟨d, b, hr, hs, himp⟩ := list_email_messages_report w
      refine ⟨d, hr, ⟨b, hs⟩, ?_, ?_⟩
      · intro hf
        rw [hs] at hf
        exact himp (Json.bool.inj (Option.some.inj hf))
      · simp [list_email_messages_effects]
    · obtain ⟨d, b, hr, hs, himp⟩ := get_email_message_report w mid
      refine ⟨d, hr, ⟨b, hs⟩, ?_, ?_⟩
      · intro hf
        rw [hs] at hf
        exact himp (Json.bool.inj (Option.some.inj hf))
      · simp [get_email_message_effects]
  · intro w e htok
    constructor
    · unfold greet_user
      rw [htok]
      exact ⟨_, rfl, rfl, rfl⟩
    · unfold display_access_token
      rw [htok]
      exact ⟨_, rfl, rfl, rfl⟩
  · intro w r c htok henv
    constructor
    · unfold greet_user
      rw [htok, henv]
      exact ⟨_, rfl, rfl, rfl⟩
    · unfold display_access_token
      rw [htok, henv]
      exact ⟨_, rfl, rfl, rfl⟩
  · intro w r c htok henv
    refine ⟨?_, ?_, ?_, ?_⟩
    · intro e hsdk
      unfold greet_user
      rw [htok, henv, hsdk]
      exact ⟨_, rfl, rfl, rfl⟩
    · intro hsdk
      unfold greet_user
      rw [htok, henv, hsdk]
      exact ⟨_, rfl, rfl, rfl⟩
    · intro cd m hsdk
      unfold greet_user
      rw [htok, henv, hsdk]
      exact ⟨_, rfl, rfl, rfl⟩
    · intro e hsdk
      unfold display_access_token
      rw [htok, henv, hsdk]
      exact ⟨_, rfl, rfl, rfl⟩
  · intro w
    refine ⟨?_, ?_, ?_, ?_, ?_⟩
    · intro hfs
      unfold list_email_messages
      dsimp only []
      rw [hfs]
      exact ⟨_, rfl, rfl, rfl⟩
    · intro e hfs
      unfold list_email_messages
      dsimp only []
      rw [hfs]
      exact ⟨_, rfl, rfl, rfl⟩
    · intro e hfs
      unfold list_email_messages
      dsimp only []
      rw [hfs]
      exact ⟨_, rfl, rfl, rfl⟩
    · intro fields hfs hfil
      unfold list_email_messages
      dsimp only []
      rw [hfs]
      dsimp only []
      rw [hfil]
      exact ⟨_, rfl, rfl, rfl⟩
    · intro j hfs hno
      cases j with
      | obj fields => exact absurd rfl (hno fields)
      | null =>
        unfold list_email_messages
        dsimp only []
        rw [hfs]
        exact ⟨_, rfl, rfl, rfl⟩
      | bool b =>
        unfold list_email_messages
        dsimp only []
        rw [hfs]
        exact ⟨_, rfl, rfl, rfl⟩
      | num n =>
        unfold list_email_messages
        dsimp only []
        rw [hfs]
        exact ⟨_, rfl, rfl, rfl⟩
      | str s =>
        unfold list_email_messages
        dsimp only []
        rw [hfs]
        exact ⟨_, rfl, rfl, rfl⟩
      | arr xs =>
        unfold list_email_messages
        dsimp only []
        rw [hfs]
        exact ⟨_, rfl, rfl, rfl⟩
  · intro w mid
    refine ⟨?_, ?_, ?_, ?_⟩
    · intro hfs
      unfold get_email_message
      dsimp only []
      rw [hfs]
      exact ⟨_, rfl, rfl, rfl⟩
    · intro e hfs
      unfold get_email_message
      dsimp only []
      rw [hfs]
      exact ⟨_, rfl, rfl, rfl⟩
    · intro e hfs
      unfold get_email_message
      dsimp only []
      rw [hfs]
      exact ⟨_, rfl, rfl, rfl⟩
    · intro j hfs hno
      cases j with
      | obj fields => exact absurd rfl (hno fields)
      | null =>
        unfold get_email_message
        dsimp only []
        rw [hfs]
        exact ⟨_, rfl, rfl, rfl⟩
      | bool b =>
        unfold get_email_message
        dsimp only []
        rw [hfs]
        exact ⟨_, rfl, rfl, rfl⟩
      | num n =>
        unfold get_email_message
        dsimp only []
        rw [hfs]
        exact ⟨_, rfl, rfl, rfl⟩
      | str s =>
        unfold get_email_message
        dsimp only []
        rw [hfs]
        exact ⟨_, rfl, rfl, rfl⟩
      | arr xs =>
        unfold get_email_message
        dsimp only []
        rw [hfs]
        exact ⟨_, rfl, rfl, rfl⟩

/-- Witness for C3: in `w0raises` the raising `get_access_token()` is caught
by `greet_user` and reported as an error dictionary; in `w0` the missing
fixture for id `nope` is caught by `get_email_message` and reported; and the
generic guarantee holds for `list_email_messages` in `w0`. -/
theorem c3_witness :
    (∃ d, (list_email_messages w0).result = Except.ok d
      ∧ (∃ b, dictGet d "success" = some (Json.bool b))
      ∧ (dictGet d "success" = some (Json.bool false) →
          ∃ m, dictGet d "error" = some (Json.str m))
      ∧ (list_email_messages w0).effects.length ≤ 1)
    ∧ ReportsError (greet_user w0raises) "no access token available"
    ∧ ReportsError (get_email_message w0 "nope")
        ("Message with ID \x27" ++ "nope" ++ "\x27 not found") :=
  ⟨c3_amended.1 "list_email_messages" (Or.inr (Or.inr (Or.inl rfl))) w0 none
      (list_email_messages w0) rfl,
   (c3_amended.2.1 w0raises "no access token available" rfl).1,
   (c3_amended.2.2.2.2.2 w0 "nope").1 rfl⟩

/-- C4 as amended: fixture data is returned unmodified apart from field
filtering and the merged-in `success` flag.  Every message in a successful
`list_email_messages` result carries exactly the keys `id`, `subject`,
`from`, `isRead`, `bodyPreview`, each copied from the fixture entry
(`message.get` yielding `None` for a missing key), in fixture order; a
successful `get_email_message` result carries every field of the parsed
fixture object, unchanged except for the `success` key, which is set to
`True`. -/
theorem c4_amended (w : World) :
    (∀ d fields msgs vs,
        (list_email_messages w).result = Except.ok d →
        dictGet d "success" = some (Json.bool true) →
        w.fs (sampleEmailsFile w.appDir) = FileResult.ok (Json.obj fields) →
        dictGetD fields "value" (Json.arr []) = Json.arr msgs →
        dictGet d "value" = some (Json.arr vs) →
        List.Forall₂ FilteredOf msgs vs
          ∧ ∀ fm ∈ vs, ∃ ffs, fm = Json.obj ffs
              ∧ dictKeys ffs = ["id", "subject", "from", "isRead", "bodyPreview"])
    ∧ (∀ mid fields d,
        w.fs (messageFile w.appDir mid) = FileResult.ok (Json.obj fields) →
        (get_email_message w mid).result = Except.ok d →
        (dictKeys fields).Nodup →
        dictGet d "success" = some (Json.bool true)
          ∧ ∀ k v, (k, v) ∈ fields → k ≠ "success" → dictGet d k = some v) := by
  constructor
  · intro d fields msgs vs hres hsucc hfs hval hvs
    unfold list_email_messages at hres
    dsimp only [] at hres
    rw [hfs] at hres
    dsimp only [] at hres
    cases hfil : iterFilter (dictGetD fields "value" (Json.arr [])) with
    | none =>
      rw [hfil] at hres
      dsimp only [] at hres
      have hd := Except.ok.inj hres
      subst hd
      exfalso
      simp [listErr, dictGet] at hsucc
    | some filtered =>
      rw [hfil] at hres
      dsimp only [] at hres
      have hd := Except.ok.inj hres
      subst hd
      rw [show dictGet [("value", Json.arr filtered),
            ("message_count", Json.num filtered.length),
            ("success", Json.bool true)] "value" = some (Json.arr filtered)
          from rfl, Option.some.injEq, Json.arr.injEq] at hvs
      subst hvs
      rw [hval] at hfil
      have hfm : filterMessages msgs = some filtered := hfil
      exact ⟨filterMessages_forall2 _ _ hfm, filterMessages_keys _ _ hfm⟩
  · intro mid fields d hfs hres hnd
    unfold get_email_message at hres
    dsimp only [] at hres
    rw [hfs] at hres
    dsimp only [] at hres
    have hd := Except.ok.inj hres
    subst hd
    refine ⟨dictGet_dictSet_self .., ?_⟩
    intro k v hmem hne
    rw [dictGet_dictSet_ne _ _ _ _ hne]
    exact dictGet_of_mem_nodup _ _ _ hnd hmem

/-- Witness for C4: the fixtures of the world `w0`. -/
theorem c4_witness :
    (List.Forall₂ FilteredOf sampleMsgs0 filteredMsgs0
      ∧ ∀ fm ∈ filteredMsgs0, ∃ ffs, fm = Json.obj ffs
          ∧ dictKeys ffs = ["id", "subject", "from", "isRead", "bodyPreview"])
    ∧ (dictGet messageResult0 "success" = some (Json.bool true)
      ∧ ∀ k v, (k, v) ∈ messageFields0 → k ≠ "success" →
          dictGet messageResult0 k = some v) :=
  ⟨(c4_amended w0).1 listResult0 sampleFields0 sampleMsgs0 filteredMsgs0
      rfl rfl rfl rfl rfl,
   (c4_amended w0).2 "m1" messageFields0 messageResult0 rfl rfl (by decide)⟩

/-- Counterexample to C4 as stated: the fixture for message `m1` in `w0`
carries the field `success: false`, but the successful `get_email_message`
result maps `success` to `true` — a fixture field returned with its value
changed, because `{**message, "success": True}` overwrites it. -/
theorem c4_counterexample :
    w0.fs (messageFile w0.appDir "m1") = FileResult.ok (Json.obj messageFields0)
    ∧ dictGet messageFields0 "success" = some (Json.bool false)
    ∧ (∃ d, (get_email_message w0 "m1").result = Except.ok d
        ∧ dictGet d "success" = some (Json.bool true)) :=
  ⟨rfl, rfl, ⟨_, rfl, rfl⟩⟩

/-- C5: `get_email_message` opens exactly
`os.path.join(data_dir, clean_id + ".json")` where `clean_id` strips
trailing `=` from `message_id`, with no other validation; consequently, for
every application directory there is a `message_id` containing `../` whose
opened path resolves outside the data directory. -/
theorem c5_path_traversal :
    (∀ appDir mid, messageFile appDir mid
        = pathJoin (dataDirOf appDir) (pyRstripEq mid ++ ".json"))
    ∧ ∀ appDir, ∃ mid, containsDotDotSlash mid = true
        ∧ isUnderDir (dataDirOf appDir) (messageFile appDir mid) = false :=
  ⟨fun _ _ => rfl,
   fun appDir => ⟨"../escape", rfl, messageFile_escape_outside appDir⟩⟩

/-- C6: appending trailing `=` characters to `message_id` never changes the
file `get_email_message` opens, and when the original call succeeds the
entire outcome (returned dictionary, world, and effects) is identical for
the padded id. -/
theorem c6_trailing_equals (w : World) (mid : String) (n : Nat) (d : Dict)
    (hres : (get_email_message w mid).result = Except.ok d)
    (hsucc : dictGet d "success" = some (Json.bool true)) :
    messageFile w.appDir (mid ++ String.mk (List.replicate n '='))
      = messageFile w.appDir mid
    ∧ get_email_message w (mid ++ String.mk (List.replicate n '='))
      = get_email_message w mid := by
  refine ⟨messageFile_append_eqs .., ?_⟩
  unfold get_email_message at hres ⊢
  dsimp only [] at hres ⊢
  rw [messageFile_append_eqs]
  cases hf : w.fs (messageFile w.appDir mid) with
  | missing =>
    rw [hf] at hres
    dsimp only [] at hres
    have hd := Except.ok.inj hres
    subst hd
    exfalso
    simp [toolErr, dictGet] at hsucc
  | ioError e => rfl
  | parseError e => rfl
  | ok j => cases j <;> rfl

/-- Witness for C6: `m1==` opens the same fixture as `m1` in `w0` and
returns the identical outcome. -/
theorem c6_witness :
    messageFile w0.appDir ("m1" ++ String.mk (List.replicate 2 '='))
      = messageFile w0.appDir "m1"
    ∧ get_email_message w0 ("m1" ++ String.mk (List.replicate 2 '='))
      = get_email_message w0 "m1" :=
  c6_trailing_equals w0 "m1" 2 messageResult0 rfl rfl

/-- C7: every tool invocation is stateless and deterministic — it leaves
the world (environment, token, filesystem, SDK responses) unchanged, and an
immediately repeated invocation with the same arguments returns the very
same outcome. -/
theorem c7_stateless (w : World) (name : String) (a : Option String)
    (o : ToolOut) (h : runTool w name a = some o) :
    o.world = w ∧ runTool o.world name a = some o := by
  have hw : o.world = w := by
    rcases runTool_cases w name a o h with
      ⟨_, _, rfl⟩ | ⟨_, _, rfl⟩ | ⟨_, _, rfl⟩ | ⟨_, _, rfl⟩ | ⟨mid, _, _, rfl⟩
    · exact get_user_info_world_eq w
    · exact greet_user_world_eq w
    · exact display_access_token_world_eq w
    · exact list_email_messages_world_eq w
    · exact get_email_message_world_eq w mid
  exact ⟨hw, by rw [hw]; exact h⟩

/-- Witness for C7: `get_user_info` in the world `w0`. -/
theorem c7_witness :
    (get_user_info w0).world = w0
    ∧ runTool (get_user_info w0).world "get_user_info" none
        = some (get_user_info w0) :=
  c7_stateless w0 "get_user_info" none (get_user_info w0) rfl

/-- C8: no tool performs persistence or caching: the filesystem is
unchanged by every invocation and no effect in the trace is a filesystem
write (fixture files are only ever opened for reading). -/
theorem c8_no_persistence (w : World) (name : String) (a : Option String)
    (o : ToolOut) (h : runTool w name a = some o) :
    o.world.fs = w.fs
    ∧ ∀ e ∈ o.effects, ∀ p, e ≠ Effect.fsWrite p := by
  rcases runTool_cases w name a o h with
    ⟨_, _, rfl⟩ | ⟨_, _, rfl⟩ | ⟨_, _, rfl⟩ | ⟨_, _, rfl⟩ | ⟨mid, _, _, rfl⟩
  · refine ⟨by rw [get_user_info_world_eq], ?_⟩
    rw [get_user_info_effects]
    intro e he
    cases he
  · refine ⟨by rw [greet_user_world_eq], ?_⟩
    rcases greet_user_effects w with he | he <;> rw [he]
    · intro e hmem
      cases hmem
    · intro e hmem p
      simp at hmem
      subst hmem
      simp
  · refine ⟨by rw [display_access_token_world_eq], ?_⟩
    rcases display_access_token_effects w with he | he <;> rw [he]
    · intro e hmem
      cases hmem
    · intro e hmem p
      simp at hmem
      subst hmem
      simp
  · refine ⟨by rw [list_email_messages_world_eq], ?_⟩
    rw [list_email_messages_effects]
    intro e hmem p
    simp at hmem
    subst hmem
    simp
  · refine ⟨by rw [get_email_message_world_eq], ?_⟩
    rw [get_email_message_effects]
    intro e hmem p
    simp at hmem
    subst hmem
    simp

/-- Witness for C8: `get_email_message` on `m1` in the world `w0`. -/
theorem c8_witness :
    (get_email_message w0 "m1").world.fs = w0.fs
    ∧ ∀ e ∈ (get_email_message w0 "m1").effects, ∀ p, e ≠ Effect.fsWrite p :=
  c8_no_persistence w0 "get_email_message" (some "m1")
    (get_email_message w0 "m1") rfl

/-- C9: the externally exposed surface is exactly the five registered
tools: a tool call can succeed for a name if and only if the name is one of
`get_user_info`, `greet_user`, `display_access_token`,
`list_email_messages`, `get_email_message`. -/
theorem c9_tool_surface (name : String) :
    (∃ w a o, runTool w name a = some o)
      ↔ name ∈ ["get_user_info", "greet_user", "display_access_token",
                 "list_email_messages", "get_email_message"] := by
  constructor
  · rintro ⟨w, a, o, h⟩
    rcases runTool_cases w name a o h with
      ⟨rfl, _, _⟩ | ⟨rfl, _, _⟩ | ⟨rfl, _, _⟩ | ⟨rfl, _, _⟩ | ⟨mid, rfl, _, _⟩
    · simp
    · simp
    · simp
    · simp
    · simp
  · intro hm
    simp at hm
    rcases hm with rfl | rfl | rfl | rfl | rfl
    · exact ⟨w0, none, _, rfl⟩
    · exact ⟨w0, none, _, rfl⟩
    · exact ⟨w0, none, _, rfl⟩
    · exact ⟨w0, none, _, rfl⟩
    · exact ⟨w0, some "m1", _, rfl⟩

/-- C10: in every successful `list_email_messages` result, `message_count`
equals the length of the `value` list and the entries of `value` are the
fixture entries, filtered, in fixture order; in every error result, `value`
is the empty list. -/
theorem c10_list_invariants (w : World) (d : Dict)
    (hres : (list_email_messages w).result = Except.ok d) :
    (dictGet d "success" = some (Json.bool false) →
       dictGet d "value" = some (Json.arr []))
    ∧ (dictGet d "success" = some (Json.bool true) →
       ∃ vs, dictGet d "value" = some (Json.arr vs)
         ∧ dictGet d "message_count" = some (Json.num vs.length)
         ∧ ∀ fields msgs,
             w.fs (sampleEmailsFile w.appDir) = FileResult.ok (Json.obj fields) →
             dictGetD fields "value" (Json.arr []) = Json.arr msgs →
             vs.length = msgs.length ∧ List.Forall₂ FilteredOf msgs vs) := by
  unfold list_email_messages at hres
  dsimp only [] at hres
  cases hf : w.fs (sampleEmailsFile w.appDir) with
  | missing =>
    rw [hf] at hres
    dsimp only [] at hres
    have hd := Except.ok.inj hres
    subst hd
    constructor
    · intro _
      rfl
    · intro hsucc
      exfalso
      simp [listErr, dictGet] at hsucc
  | ioError e =>
    rw [hf] at hres
    dsimp only [] at hres
    have hd := Except.ok.inj hres
    subst hd
    constructor
    · intro _
      rfl
    · intro hsucc
      exfalso
      simp [listErr, dictGet] at hsucc
  | parseError e =>
    rw [hf] at hres
    dsimp only [] at hres
    have hd := Except.ok.inj hres
    subst hd
    constructor
    · intro _
      rfl
    · intro hsucc
      exfalso
      simp [listErr, dictGet] at hsucc
  | ok j =>
    cases j with
    | obj fields =>
      rw [hf] at hres
      dsimp only [] at hres
      cases hfil : iterFilter (dictGetD fields "value" (Json.arr [])) with
      | none =>
        rw [hfil] at hres
        dsimp only [] at hres
        have hd := Except.ok.inj hres
        subst hd
        constructor
        · intro _
          rfl
        · intro hsucc
          exfalso
          simp [listErr, dictGet] at hsucc
      | some filtered =>
        rw [hfil] at hres
        dsimp only [] at hres
        have hd := Except.ok.inj hres
        subst hd
        constructor
        · intro hsucc
          exfalso
          simp [dictGet] at hsucc
        · intro _
          refine ⟨filtered, rfl, rfl, ?_⟩
          intro fields2 msgs hfs2 hval
          have hf2 := Json.obj.inj (FileResult.ok.inj hfs2)
          subst hf2
          rw [hval] at hfil
          have hfm : filterMessages msgs = some filtered := hfil
          have hforall := filterMessages_forall2 _ _ hfm
          exact ⟨(List.Forall₂.length_eq hforall).symm, hforall⟩
    | null =>
      rw [hf] at hres
      dsimp only [] at hres
      have hd := Except.ok.inj hres
      subst hd
      constructor
      · intro _
        rfl
      · intro hsucc
        exfalso
        simp [listErr, dictGet] at hsucc
    | bool b =>
      rw [hf] at hres
      dsimp only [] at hres
      have hd := Except.ok.inj hres
      subst hd
      constructor
      · intro _
        rfl
      · intro hsucc
        exfalso
        simp [listErr, dictGet] at hsucc
    | num n =>
      rw [hf] at hres
      dsimp only [] at hres
      have hd := Except.ok.inj hres
      subst hd
      constructor
      · intro _
        rfl
      · intro hsucc
        exfalso
        simp [listErr, dictGet] at hsucc
    | str s =>
      rw [hf] at hres
      dsimp only [] at hres
      have hd := Except.ok.inj hres
      subst hd
      constructor
      · intro _
        rfl
      · intro hsucc
        exfalso
        simp [listErr, dictGet] at hsucc
    | arr xs =>
      rw [hf] at hres
      dsimp only [] at hres
      have hd := Except.ok.inj hres
      subst hd
      constructor
      · intro _
        rfl
      · intro hsucc
        exfalso
        simp [listErr, dictGet] at hsucc

/-- Witness for C10: the result of `list_email_messages` in the world
`w0`. -/
theorem c10_witness :
    (dictGet listResult0 "success" = some (Json.bool false) →
       dictGet listResult0 "value" = some (Json.arr []))
    ∧ (dictGet listResult0 "success" = some (Json.bool true) →
       ∃ vs, dictGet listResult0 "value" = some (Json.arr vs)
         ∧ dictGet listResult0 "message_count" = some (Json.num vs.length)
         ∧ ∀ fields msgs,
             w0.fs (sampleEmailsFile w0.appDir) = FileResult.ok (Json.obj fields) →
             dictGetD fields "value" (Json.arr []) = Json.arr msgs →
             vs.length = msgs.length ∧ List.Forall₂ FilteredOf msgs vs) :=
  c10_list_invariants w0 listResult0 rfl

end GraphMcp
